import Mathlib

/-!
A shallow embedding of the local order-book / risk-limit engine of the
readyTraderOne repository (`goodtrader.py`, class `OrderBook`), together
with theorems settling the specification claims about it.

Python machine semantics are modelled as follows: Python integers are
`Int`; the float expression `round(x / y)` on integer operands is modelled
as exact rational division followed by round-half-to-even
(`pyRoundDiv`), which is Python's rounding mode; `abs` is `pyAbs`; the `cancelled_orders`
dict is an association list whose lookup takes the most recent binding;
the `TypeError` raised by `remove_least_useful_order` on an empty book
(subscripting `None`) is modelled by an `Option`-valued result whose
`none` case is the uncaught exception.
-/

namespace GT

/-- The limits configured at the top of `goodtrader.py`. -/
def POSITION_LIMIT : Int := 1000

/-- Aggregate resting-volume limit from `goodtrader.py`. -/
def VOLUME_LIMIT : Int := 200

/-- Maximum number of simultaneous resting orders from `goodtrader.py`. -/
def ORDER_LIMIT : Int := 10

/-- The two-valued side enum of the exchange library; `BID` and `ASK` are
aliases of `BUY` and `SELL`, exactly as in `ready_trader_one.Side`. -/
inductive Side where
  | BUY : Side
  | SELL : Side
deriving DecidableEq, Repr

/-- Alias used by the order-book code for the buy side. -/
def Side.BID : Side := Side.BUY

/-- Alias used by the order-book code for the sell side. -/
def Side.ASK : Side := Side.SELL

/-- A resting order `[price, vol, order_id]` as stored in the Python lists
`bids` and `asks`. -/
structure Order where
  price : Int
  vol : Int
  order_id : Int
deriving DecidableEq, Repr

/-- Python `abs` on an integer. -/
def pyAbs (x : Int) : Int := if x < 0 then -x else x

/-- Python `round(a / b)` for integers `a` and `b > 0`, evaluated over the
exact rational `a / b`: round half to even, Python's rounding mode.
(`Int.ediv`/`Int.emod` are floor division for a positive divisor.) -/
def pyRoundDiv (a b : Int) : Int :=
  let q := a / b
  let r := a % b
  if 2 * r < b then q
  else if 2 * r > b then q + 1
  else if q % 2 = 0 then q else q + 1

/-- The state held by the Python class `OrderBook` (its `__init__` fields,
in order). -/
structure OrderBook where
  position : Int
  position_after_orders : Int
  volume : Int
  num_orders : Int
  asks : List Order
  bids : List Order
  vol_asks : Int
  vol_bids : Int
  average_price : Int
  total_buy_volume : Int
  total_sell_volume : Int
  future_position : Int
  last_buy : Int
  last_sell : Int
  cancelled_orders : List (Int × Side)
deriving DecidableEq, Repr

/-- The freshly constructed `OrderBook()`. -/
def OrderBook.init : OrderBook where
  position := 0
  position_after_orders := 0
  volume := 0
  num_orders := 0
  asks := []
  bids := []
  vol_asks := 0
  vol_bids := 0
  average_price := 0
  total_buy_volume := 0
  total_sell_volume := 0
  future_position := 0
  last_buy := 0
  last_sell := 0
  cancelled_orders := []

/-- The insertion loop shared by `add_bid` and `add_ask`: insert the new
order immediately before the first entry whose price is `>=` its own,
appending if no such entry exists. -/
def insertSorted : List Order → Order → List Order
  | [], o => [o]
  | x :: xs, o => if x.price ≥ o.price then o :: x :: xs else x :: insertSorted xs o

/-- The two successive reassignments of `vol` in `add_bid`: clamp to the
volume-limit room, then to the position-plus-resting-bids room. -/
def bidClampVol (b : OrderBook) (vol : Int) : Int :=
  let vol1 := if vol + b.volume > VOLUME_LIMIT then VOLUME_LIMIT - b.volume else vol
  if b.position + b.vol_bids + vol1 > POSITION_LIMIT then
    POSITION_LIMIT - b.position - b.vol_bids
  else vol1

/-- The two successive reassignments of `vol` in `add_ask`; note the
source uses `abs(self.position)` in the second clamp. -/
def askClampVol (b : OrderBook) (vol : Int) : Int :=
  let vol1 := if vol + b.volume > VOLUME_LIMIT then VOLUME_LIMIT - b.volume else vol
  if -b.position + b.vol_asks + vol1 > POSITION_LIMIT then
    POSITION_LIMIT - pyAbs b.position - b.vol_asks
  else vol1

/-- `OrderBook.add_bid(price, vol, order_id)`.  The Python method mutates
`self` and returns `[Boolean, int]`; here it returns the new book together
with that pair. -/
def OrderBook.add_bid (b : OrderBook) (price vol order_id : Int) :
    OrderBook × Bool × Int :=
  if b.num_orders < ORDER_LIMIT then
    if b.volume = VOLUME_LIMIT then (b, false, 1)
    else if b.position = POSITION_LIMIT then (b, false, 2)
    else if b.position + b.vol_bids = POSITION_LIMIT then (b, false, 3)
    else
      let v := bidClampVol b vol
      ({ b with bids := insertSorted b.bids ⟨price, v, order_id⟩
              , position_after_orders := b.position_after_orders + v
              , volume := b.volume + v
              , num_orders := b.num_orders + 1
              , vol_bids := b.vol_bids + v }, true, v)
  else (b, false, 0)

/-- `OrderBook.add_ask(price, vol, order_id)`. -/
def OrderBook.add_ask (b : OrderBook) (price vol order_id : Int) :
    OrderBook × Bool × Int :=
  if b.num_orders < ORDER_LIMIT then
    if b.volume = VOLUME_LIMIT then (b, false, 1)
    else if b.position = -POSITION_LIMIT then (b, false, 2)
    else if -b.position + b.vol_asks = POSITION_LIMIT then (b, false, 3)
    else
      let v := askClampVol b vol
      ({ b with asks := insertSorted b.asks ⟨price, v, order_id⟩
              , position_after_orders := b.position_after_orders - v
              , volume := b.volume + v
              , num_orders := b.num_orders + 1
              , vol_asks := b.vol_asks + v }, true, v)
  else (b, false, 0)

/-- `OrderBook.calc_average_price(price, vol, side)`.  The `round` of the
Python source is `pyRoundDiv` over the exact quotient. -/
def OrderBook.calc_average_price (b : OrderBook) (price vol : Int) (side : Side) :
    OrderBook :=
  if side = Side.BUY then
    if b.position > 0 then
      let total_price := b.total_buy_volume * b.average_price + price * vol
      { b with total_buy_volume := b.total_buy_volume + vol
             , average_price := pyRoundDiv total_price (b.total_buy_volume + vol) }
    else
      let new_position := b.position + vol
      if new_position > 0 then
        { b with total_sell_volume := 0
               , total_buy_volume := new_position
               , average_price := price }
      else if new_position < 0 then
        { b with total_sell_volume := b.total_sell_volume - vol }
      else
        { b with total_buy_volume := 0, total_sell_volume := 0, average_price := 0 }
  else
    if b.position < 0 then
      let total_price := b.total_sell_volume * b.average_price + price * vol
      { b with total_sell_volume := b.total_sell_volume + vol
             , average_price := pyRoundDiv total_price (b.total_sell_volume + vol) }
    else
      let new_position := b.position - vol
      if new_position < 0 then
        { b with total_buy_volume := 0
               , total_sell_volume := pyAbs new_position
               , average_price := price }
      else if new_position > 0 then
        { b with total_buy_volume := b.total_buy_volume - vol }
      else
        { b with total_buy_volume := 0, total_sell_volume := 0, average_price := 0 }

/-- Locate the first order with the given id in a list and apply the fill
of `amend_order` to it: pop it when `vol` reaches zero, otherwise reduce
its volume.  Returns the matched order (as it was) and the updated list. -/
def amendList (vol order_id : Int) : List Order → Option (Order × List Order)
  | [] => none
  | x :: xs =>
    if x.order_id = order_id then
      if x.vol - vol = 0 then some (x, xs)
      else some (x, ⟨x.price, x.vol - vol, x.order_id⟩ :: xs)
    else
      match amendList vol order_id xs with
      | none => none
      | some (o, ys) => some (o, x :: ys)

/-- Lookup in the `cancelled_orders` dict (most recent binding wins). -/
def lookupSide : List (Int × Side) → Int → Option Side
  | [], _ => none
  | p :: rest, i => if p.1 = i then some p.2 else lookupSide rest i

/-- Which path `amend_order` took; `registry` and `notFound` are the two
paths that log `"Order not found"` via `trader.logger.error`. -/
inductive AmendOutcome where
  | filledBid : AmendOutcome
  | filledAsk : AmendOutcome
  | registry : AmendOutcome
  | notFound : AmendOutcome
deriving DecidableEq, Repr

/-- True exactly when the outcome logged the `"Order not found"` error. -/
def amendErrorLogged : AmendOutcome → Bool
  | AmendOutcome.filledBid => false
  | AmendOutcome.filledAsk => false
  | AmendOutcome.registry => true
  | AmendOutcome.notFound => true

/-- `OrderBook.amend_order(trader, vol, order_id)`: bids are searched
first, then asks, then the cancelled-order registry; the `trader`
argument is only used for logging and is replaced by the returned
`AmendOutcome`. -/
def OrderBook.amend_order (b : OrderBook) (vol order_id : Int) :
    OrderBook × AmendOutcome :=
  match amendList vol order_id b.bids with
  | some (o, newBids) =>
      let b1 := b.calc_average_price o.price vol Side.BUY
      ({ b1 with volume := b1.volume - vol
               , position := b1.position + vol
               , future_position := b1.future_position - vol
               , last_buy := o.price
               , vol_bids := b1.vol_bids - vol
               , bids := newBids
               , num_orders := if o.vol - vol = 0 then b1.num_orders - 1 else b1.num_orders },
       AmendOutcome.filledBid)
  | none =>
    match amendList vol order_id b.asks with
    | some (o, newAsks) =>
        let b1 := b.calc_average_price o.price vol Side.SELL
        ({ b1 with volume := b1.volume - vol
                 , position := b1.position - vol
                 , future_position := b1.future_position + vol
                 , last_sell := o.price
                 , vol_asks := b1.vol_asks - vol
                 , asks := newAsks
                 , num_orders := if o.vol - vol = 0 then b1.num_orders - 1 else b1.num_orders },
         AmendOutcome.filledAsk)
    | none =>
      match lookupSide b.cancelled_orders order_id with
      | some s =>
          if s = Side.ASK then
            ({ b with position := b.position - vol
                    , future_position := b.future_position + vol }, AmendOutcome.registry)
          else
            ({ b with position := b.position + vol
                    , future_position := b.future_position - vol }, AmendOutcome.registry)
      | none => (b, AmendOutcome.notFound)

/-- Locate and delete the first order with the given id. -/
def removeList (order_id : Int) : List Order → Option (Order × List Order)
  | [] => none
  | x :: xs =>
    if x.order_id = order_id then some (x, xs)
    else
      match removeList order_id xs with
      | none => none
      | some (o, ys) => some (o, x :: ys)

/-- `OrderBook.remove_order(order_id)`. -/
def OrderBook.remove_order (b : OrderBook) (order_id : Int) : OrderBook :=
  match removeList order_id b.bids with
  | some (o, newBids) =>
      { b with num_orders := b.num_orders - 1
             , position_after_orders := b.position_after_orders - o.vol
             , volume := b.volume - o.vol
             , vol_bids := b.vol_bids - o.vol
             , bids := newBids
             , cancelled_orders := (order_id, Side.BID) :: b.cancelled_orders }
  | none =>
    match removeList order_id b.asks with
    | some (o, newAsks) =>
        { b with num_orders := b.num_orders - 1
               , position_after_orders := b.position_after_orders + o.vol
               , volume := b.volume - o.vol
               , vol_asks := b.vol_asks - o.vol
               , asks := newAsks
               , cancelled_orders := (order_id, Side.ASK) :: b.cancelled_orders }
    | none => b

/-- The selection loop of `remove_least_useful_order` over one side's
list: the running state is `(max_diff, order_id, order and remove_side)`,
updated whenever the current order's distance beats the maximum or ties
it with a larger id. -/
def selectScan (market : Int) (s : Side) :
    List Order → Int × Int × Option (Order × Side) → Int × Int × Option (Order × Side)
  | [], acc => acc
  | o :: os, acc =>
    let d := pyAbs (market - o.price)
    if d > acc.1 ∨ (d = acc.1 ∧ o.order_id > acc.2.1) then
      selectScan market s os (d, o.order_id, some (o, s))
    else
      selectScan market s os acc

/-- The full selection of `remove_least_useful_order`: scan bids, then
asks, starting from `max_diff = -1`, `order_id = -1`, `order = None`. -/
def selectAll (b : OrderBook) (market : Int) : Int × Int × Option (Order × Side) :=
  selectScan market Side.ASK b.asks (selectScan market Side.BID b.bids (-1, -1, none))

/-- `OrderBook.remove_least_useful_order(market_price, price, side)`.
The outer `none` is the uncaught `TypeError` the Python method raises by
subscripting `order = None` when both lists are empty; `some (b, none)`
is a normal `return None`. -/
def OrderBook.remove_least_useful_order (b : OrderBook) (market_price price : Int)
    (side : Side) : Option (OrderBook × Option Int) :=
  match selectAll b market_price with
  | (_, order_id, some (o, remove_side)) =>
      if o.price = price ∧ side = remove_side then some (b, none)
      else some (b.remove_order order_id, some order_id)
  | (_, _, none) => none

/-- `OrderBook.calc_profit_or_loss(future_price, etf_price)`; the Python
expression `round(0.02 * future_price)` is, over exact arithmetic, the
half-even rounding of `future_price / 50`. -/
def OrderBook.calc_profit_or_loss (b : OrderBook) (future_price etf_price : Int) : Int :=
  let delta0 := pyRoundDiv future_price 50
  let delta := delta0 - delta0 % 100
  let min_price := future_price - delta
  let max_price := future_price + delta
  let clamped :=
    if etf_price < min_price then min_price
    else if etf_price > max_price then max_price
    else etf_price
  b.future_position * future_price + b.position * clamped

/-- One mutating operation of the ledger, as enumerated by the claims. -/
inductive Op where
  | addBid : Int → Int → Int → Op
  | addAsk : Int → Int → Int → Op
  | amend : Int → Int → Op
  | remove : Int → Op
  | evict : Int → Int → Side → Op
deriving DecidableEq, Repr

/-- Apply one operation to the book.  For `evict`, the Python `TypeError`
on an empty book leaves the state as it was at the raise point (nothing
has been mutated yet). -/
def applyOp (b : OrderBook) : Op → OrderBook
  | Op.addBid p v i => (b.add_bid p v i).1
  | Op.addAsk p v i => (b.add_ask p v i).1
  | Op.amend v i => (b.amend_order v i).1
  | Op.remove i => b.remove_order i
  | Op.evict m p s =>
    match b.remove_least_useful_order m p s with
    | some (b1, _) => b1
    | none => b

/-- Run a sequence of operations from a starting book. -/
def runOps (b : OrderBook) : List Op → OrderBook
  | [] => b
  | op :: ops => runOps (applyOp b op) ops

/-- A well-formed operation: submissions carry positive volume (the
spec's precondition) and fills match a resting order with fill volume at
most the order's remaining volume (in particular late fills routed
through the cancelled-order registry are excluded). -/
def goodOp (b : OrderBook) : Op → Bool
  | Op.addBid _ v _ => decide (0 < v)
  | Op.addAsk _ v _ => decide (0 < v)
  | Op.amend v i =>
    (match amendList v i b.bids with
     | some (o, _) => decide (0 < v) && decide (v ≤ o.vol)
     | none =>
       match amendList v i b.asks with
       | some (o, _) => decide (0 < v) && decide (v ≤ o.vol)
       | none => false)
  | Op.remove _ => true
  | Op.evict _ _ _ => true

/-- Every operation along the trace is well formed in the state where it
executes. -/
def goodTrace : OrderBook → List Op → Bool
  | _, [] => true
  | b, op :: ops => goodOp b op && goodTrace (applyOp b op) ops

/-- An operation that does not take the cancelled-order-registry branch of
`amend_order`: any non-amend operation, or an amend whose id matches a
resting order or is absent from the registry. -/
def nonRegistryOp (b : OrderBook) : Op → Bool
  | Op.amend v i =>
    (match amendList v i b.bids with
     | some _ => true
     | none =>
       match amendList v i b.asks with
       | some _ => true
       | none => (lookupSide b.cancelled_orders i).isNone)
  | _ => true

/-- Every operation along the trace avoids the registry branch. -/
def nonRegistryTrace : OrderBook → List Op → Bool
  | _, [] => true
  | b, op :: ops => nonRegistryOp b op && nonRegistryTrace (applyOp b op) ops

/-- Modelled from the spec: the rejection code a `submitBid` call should
produce, with the four conditions tested in the spec's order. -/
def bidRejectCode (b : OrderBook) : Int :=
  if ORDER_LIMIT ≤ b.num_orders then 0
  else if b.volume = VOLUME_LIMIT then 1
  else if b.position = POSITION_LIMIT then 2
  else 3

/-- Modelled from the spec: the rejection code a `submitAsk` call should
produce, with the four conditions tested in the spec's order. -/
def askRejectCode (b : OrderBook) : Int :=
  if ORDER_LIMIT ≤ b.num_orders then 0
  else if b.volume = VOLUME_LIMIT then 1
  else if b.position = -POSITION_LIMIT then 2
  else 3

/-- Total resting volume of a side's list. -/
def sumVol : List Order → Int
  | [] => 0
  | o :: os => o.vol + sumVol os

/-- The inductive invariant carried by the ledger under well-formed
operations; its last three conjuncts imply the limits of the spec. -/
def Inv (b : OrderBook) : Prop :=
  b.vol_bids = sumVol b.bids ∧
  b.vol_asks = sumVol b.asks ∧
  b.volume = b.vol_bids + b.vol_asks ∧
  (∀ x ∈ b.bids, 0 < x.vol) ∧
  (∀ x ∈ b.asks, 0 < x.vol) ∧
  b.position + b.vol_bids ≤ POSITION_LIMIT ∧
  -b.position + b.vol_asks ≤ POSITION_LIMIT ∧
  b.volume ≤ VOLUME_LIMIT

/-- The projected-position equation of the spec. -/
def Inv2 (b : OrderBook) : Prop :=
  b.position_after_orders = b.position + b.vol_bids - b.vol_asks

/-- Lexicographic order on `(distance, order id)` pairs: the eviction
policy selects the lex-largest pair. -/
def lexLE (p q : Int × Int) : Prop :=
  p.1 < q.1 ∨ (p.1 = q.1 ∧ p.2 ≤ q.2)

end GT

namespace GT

lemma pyAbs_nonneg (x : Int) : 0 ≤ pyAbs x := by
  unfold pyAbs; split <;> omega

lemma sumVol_nonneg (l : List Order) (h : ∀ x ∈ l, 0 < x.vol) : 0 ≤ sumVol l := by
  induction l with
  | nil => simp [sumVol]
  | cons x xs ih =>
      have hx := h x (List.mem_cons_self x xs)
      have := ih (fun y hy => h y (List.mem_cons_of_mem x hy))
      simp only [sumVol]; omega

lemma sumVol_insertSorted (l : List Order) (o : Order) :
    sumVol (insertSorted l o) = sumVol l + o.vol := by
  induction l with
  | nil => simp [insertSorted, sumVol]
  | cons x xs ih =>
      unfold insertSorted
      split
      · simp only [sumVol]; omega
      · simp only [sumVol, ih]; omega

lemma mem_insertSorted (l : List Order) (o x : Order) (h : x ∈ insertSorted l o) :
    x = o ∨ x ∈ l := by
  induction l with
  | nil =>
      simp only [insertSorted, List.mem_singleton] at h
      exact Or.inl h
  | cons y ys ih =>
      unfold insertSorted at h
      split at h
      · rcases List.mem_cons.mp h with h1 | h1
        · exact Or.inl h1
        · exact Or.inr h1
      · rcases List.mem_cons.mp h with h1 | h1
        · exact Or.inr (h1 ▸ List.mem_cons_self y ys)
        · rcases ih h1 with h2 | h2
          · exact Or.inl h2
          · exact Or.inr (List.mem_cons_of_mem y h2)

lemma amendList_spec (v i : Int) (l l' : List Order) (o : Order)
    (h : amendList v i l = some (o, l')) :
    o ∈ l ∧ sumVol l' = sumVol l - v ∧
      ((∀ x ∈ l, 0 < x.vol) → v ≤ o.vol → ∀ x ∈ l', 0 < x.vol) := by
  induction l generalizing l' with
  | nil => simp [amendList] at h
  | cons y ys ih =>
      unfold amendList at h
      split at h
      · rename_i hid
        split at h
        · rename_i hz
          simp only [Option.some.injEq, Prod.mk.injEq] at h
          obtain ⟨rfl, rfl⟩ := h
          refine ⟨List.mem_cons_self y ys, by simp only [sumVol]; omega, ?_⟩
          intro hpos _ x hx
          exact hpos x (List.mem_cons_of_mem y hx)
        · rename_i hz
          simp only [Option.some.injEq, Prod.mk.injEq] at h
          obtain ⟨rfl, rfl⟩ := h
          refine ⟨List.mem_cons_self y ys, by simp only [sumVol]; omega, ?_⟩
          intro hpos hle x hx
          rcases List.mem_cons.mp hx with h1 | h1
          · subst h1; simp only []; omega
          · exact hpos x (List.mem_cons_of_mem y h1)
      · rename_i hid
        revert h
        cases hrec : amendList v i ys with
        | none => intro h; simp at h
        | some p =>
            obtain ⟨o1, ys1⟩ := p
            intro h
            simp only [Option.some.injEq, Prod.mk.injEq] at h
            obtain ⟨rfl, rfl⟩ := h
            obtain ⟨hmem, hsum, hpos⟩ := ih ys1 hrec
            refine ⟨List.mem_cons_of_mem y hmem, by simp only [sumVol]; omega, ?_⟩
            intro hp hle x hx
            rcases List.mem_cons.mp hx with h1 | h1
            · exact h1 ▸ hp y (List.mem_cons_self y ys)
            · exact hpos (fun z hz => hp z (List.mem_cons_of_mem y hz)) hle x h1

lemma amendList_eq_none (v i : Int) (l : List Order) :
    amendList v i l = none ↔ ∀ x ∈ l, x.order_id ≠ i := by
  induction l with
  | nil => simp [amendList]
  | cons y ys ih =>
      unfold amendList
      constructor
      · intro h x hx
        split at h
        · split at h <;> simp at h
        · rename_i hid
          rcases List.mem_cons.mp hx with h1 | h1
          · exact h1 ▸ hid
          · revert h
            cases hrec : amendList v i ys with
            | none => intro _; exact (ih.mp hrec) x h1
            | some p => obtain ⟨o1, ys1⟩ := p; intro h; simp at h
      · intro h
        have hy : y.order_id ≠ i := h y (List.mem_cons_self y ys)
        rw [if_neg hy]
        rw [ih.mpr (fun x hx => h x (List.mem_cons_of_mem y hx))]

lemma removeList_spec (i : Int) (l l' : List Order) (o : Order)
    (h : removeList i l = some (o, l')) :
    o ∈ l ∧ sumVol l' = sumVol l - o.vol ∧ (∀ x ∈ l', x ∈ l) := by
  induction l generalizing l' with
  | nil => simp [removeList] at h
  | cons y ys ih =>
      unfold removeList at h
      split at h
      · simp only [Option.some.injEq, Prod.mk.injEq] at h
        obtain ⟨rfl, rfl⟩ := h
        exact ⟨List.mem_cons_self y ys, by simp only [sumVol]; omega,
          fun x hx => List.mem_cons_of_mem y hx⟩
      · revert h
        cases hrec : removeList i ys with
        | none => intro h; simp at h
        | some p =>
            obtain ⟨o1, ys1⟩ := p
            intro h
            simp only [Option.some.injEq, Prod.mk.injEq] at h
            obtain ⟨rfl, rfl⟩ := h
            obtain ⟨hmem, hsum, hsub⟩ := ih ys1 hrec
            refine ⟨List.mem_cons_of_mem y hmem, by simp only [sumVol]; omega, ?_⟩
            intro x hx
            rcases List.mem_cons.mp hx with h1 | h1
            · exact h1 ▸ List.mem_cons_self y ys
            · exact List.mem_cons_of_mem y (hsub x h1)


lemma calc_average_price_fields (b : OrderBook) (p v : Int) (s : Side) :
    (b.calc_average_price p v s).position = b.position ∧
    (b.calc_average_price p v s).position_after_orders = b.position_after_orders ∧
    (b.calc_average_price p v s).volume = b.volume ∧
    (b.calc_average_price p v s).num_orders = b.num_orders ∧
    (b.calc_average_price p v s).asks = b.asks ∧
    (b.calc_average_price p v s).bids = b.bids ∧
    (b.calc_average_price p v s).vol_asks = b.vol_asks ∧
    (b.calc_average_price p v s).vol_bids = b.vol_bids ∧
    (b.calc_average_price p v s).future_position = b.future_position ∧
    (b.calc_average_price p v s).last_buy = b.last_buy ∧
    (b.calc_average_price p v s).last_sell = b.last_sell ∧
    (b.calc_average_price p v s).cancelled_orders = b.cancelled_orders := by
  unfold OrderBook.calc_average_price
  dsimp only
  repeat' split
  all_goals simp

lemma bidClampVol_bounds (b : OrderBook) (v : Int) (hv : 0 < v)
    (hvol : b.volume ≤ VOLUME_LIMIT) (h200 : b.volume ≠ VOLUME_LIMIT)
    (hpb : b.position + b.vol_bids ≤ POSITION_LIMIT)
    (hpb2 : b.position + b.vol_bids ≠ POSITION_LIMIT) :
    0 < bidClampVol b v ∧
    b.position + b.vol_bids + bidClampVol b v ≤ POSITION_LIMIT ∧
    b.volume + bidClampVol b v ≤ VOLUME_LIMIT := by
  unfold bidClampVol VOLUME_LIMIT POSITION_LIMIT at *
  dsimp only
  split_ifs <;> omega

lemma askClampVol_bounds (b : OrderBook) (v : Int) (hv : 0 < v)
    (hvol : b.volume ≤ VOLUME_LIMIT) (h200 : b.volume ≠ VOLUME_LIMIT)
    (hpa : -b.position + b.vol_asks ≤ POSITION_LIMIT)
    (hpa2 : -b.position + b.vol_asks ≠ POSITION_LIMIT)
    (hvb : 0 ≤ b.vol_bids) (hsum : b.volume = b.vol_bids + b.vol_asks) :
    0 < askClampVol b v ∧
    -b.position + b.vol_asks + askClampVol b v ≤ POSITION_LIMIT ∧
    b.volume + askClampVol b v ≤ VOLUME_LIMIT := by
  unfold askClampVol pyAbs VOLUME_LIMIT POSITION_LIMIT at *
  dsimp only
  split_ifs <;> omega

lemma bidClampVol_eq_min (b : OrderBook) (v : Int) :
    bidClampVol b v =
      min (min v (VOLUME_LIMIT - b.volume)) (POSITION_LIMIT - b.position - b.vol_bids) := by
  unfold bidClampVol
  dsimp only
  rw [min_def, min_def]
  split_ifs <;> omega

lemma askClampVol_eq_min (b : OrderBook) (v : Int) (h : b.vol_asks ≤ b.volume) :
    askClampVol b v =
      min (min v (VOLUME_LIMIT - b.volume)) (POSITION_LIMIT + b.position - b.vol_asks) := by
  unfold askClampVol pyAbs VOLUME_LIMIT POSITION_LIMIT at *
  dsimp only
  rw [min_def, min_def]
  split_ifs <;> omega


/-- C3: when `amend_order(vol, id)` matches no resting order, a
cancelled-order-registry hit updates `position`/`future_position` by
`+vol`/`-vol` (recorded side Bid) or `-vol`/`+vol` (recorded side Ask)
and leaves every other ledger field unchanged; a miss in both the ledger
and the registry logs an error (never silently dropped) and leaves the
ledger unchanged. -/
theorem C3_amend_unmatched (b : OrderBook) (vol order_id : Int)
    (hnb : ∀ x ∈ b.bids, x.order_id ≠ order_id)
    (hna : ∀ x ∈ b.asks, x.order_id ≠ order_id) :
    (lookupSide b.cancelled_orders order_id = some Side.BID →
      b.amend_order vol order_id =
        ({ b with position := b.position + vol
                , future_position := b.future_position - vol }, AmendOutcome.registry)) ∧
    (lookupSide b.cancelled_orders order_id = some Side.ASK →
      b.amend_order vol order_id =
        ({ b with position := b.position - vol
                , future_position := b.future_position + vol }, AmendOutcome.registry)) ∧
    (lookupSide b.cancelled_orders order_id = none →
      b.amend_order vol order_id = (b, AmendOutcome.notFound) ∧
        amendErrorLogged (b.amend_order vol order_id).2 = true) := by
  have hb : amendList vol order_id b.bids = none :=
    (amendList_eq_none vol order_id b.bids).mpr hnb
  have ha : amendList vol order_id b.asks = none :=
    (amendList_eq_none vol order_id b.asks).mpr hna
  refine ⟨?_, ?_, ?_⟩
  · intro hreg
    unfold OrderBook.amend_order
    rw [hb, ha, hreg]
    simp [Side.BID, Side.ASK]
  · intro hreg
    unfold OrderBook.amend_order
    rw [hb, ha, hreg]
    simp [Side.ASK]
  · intro hreg
    unfold OrderBook.amend_order
    rw [hb, ha, hreg]
    simp [amendErrorLogged]

/-- C4: rejection of `add_bid`/`add_ask` is decided exactly by the four
conditions of the spec, in order, with the matching code, and a rejected
call leaves the ledger unchanged. -/
theorem C4_rejection (b : OrderBook) (price vol order_id : Int) :
    ((b.add_bid price vol order_id).2.1 = false ↔
      (ORDER_LIMIT ≤ b.num_orders ∨ b.volume = VOLUME_LIMIT ∨
        b.position = POSITION_LIMIT ∨ b.position + b.vol_bids = POSITION_LIMIT)) ∧
    ((b.add_bid price vol order_id).2.1 = false →
      b.add_bid price vol order_id = (b, false, bidRejectCode b)) ∧
    ((b.add_ask price vol order_id).2.1 = false ↔
      (ORDER_LIMIT ≤ b.num_orders ∨ b.volume = VOLUME_LIMIT ∨
        b.position = -POSITION_LIMIT ∨ -b.position + b.vol_asks = POSITION_LIMIT)) ∧
    ((b.add_ask price vol order_id).2.1 = false →
      b.add_ask price vol order_id = (b, false, askRejectCode b)) := by
  unfold OrderBook.add_bid OrderBook.add_ask bidRejectCode askRejectCode
  refine ⟨?_, ?_, ?_, ?_⟩ <;> split_ifs <;> simp_all <;> omega

/-- C8 counterexample: a reachable ledger with `volume == VOLUME_LIMIT`
and ten resting orders answers `submitBid` with `(false, 0)`, not the
`(false, 1)` the claim demands for every such ledger. -/
theorem C8_counterexample :
    (runOps OrderBook.init [Op.addBid 100 20 1, Op.addBid 100 20 2, Op.addBid 100 20 3,
      Op.addBid 100 20 4, Op.addBid 100 20 5, Op.addBid 100 20 6, Op.addBid 100 20 7,
      Op.addBid 100 20 8, Op.addBid 100 20 9, Op.addBid 100 20 10]).volume = VOLUME_LIMIT ∧
    ((runOps OrderBook.init [Op.addBid 100 20 1, Op.addBid 100 20 2, Op.addBid 100 20 3,
      Op.addBid 100 20 4, Op.addBid 100 20 5, Op.addBid 100 20 6, Op.addBid 100 20 7,
      Op.addBid 100 20 8, Op.addBid 100 20 9, Op.addBid 100 20 10]).add_bid 100 5 11).2 =
      (false, 0) ∧
    ((runOps OrderBook.init [Op.addBid 100 20 1, Op.addBid 100 20 2, Op.addBid 100 20 3,
      Op.addBid 100 20 4, Op.addBid 100 20 5, Op.addBid 100 20 6, Op.addBid 100 20 7,
      Op.addBid 100 20 8, Op.addBid 100 20 9, Op.addBid 100 20 10]).add_bid 100 5 11).2 ≠
      (false, 1) := by
  refine ⟨by decide, by decide, by decide⟩

/-- C8 (amended): in every ledger state with `volume == VOLUME_LIMIT` and
`numOrders < ORDER_LIMIT`, every `submitBid` call returns `(false, 1)` and
leaves the ledger unchanged. -/
theorem C8_volume_limit (b : OrderBook) (price vol order_id : Int)
    (h1 : b.volume = VOLUME_LIMIT) (h2 : b.num_orders < ORDER_LIMIT) :
    b.add_bid price vol order_id = (b, false, 1) := by
  unfold OrderBook.add_bid
  rw [if_pos h2, if_pos h1]

/-- C8 witness: a ledger holding one resting bid of volume 200. -/
theorem C8_witness :
    (runOps OrderBook.init [Op.addBid 100 200 1]).add_bid 101 5 2 =
      (runOps OrderBook.init [Op.addBid 100 200 1], false, 1) :=
  C8_volume_limit (runOps OrderBook.init [Op.addBid 100 200 1]) 101 5 2
    (by decide) (by decide)

/-- C9: `calc_profit_or_loss` clamps the paired price into the band of
half-width `delta` (2 percent of the future price, rounded, floored to
the nearest 100) around the future price and returns
`futurePosition * futurePrice + position * clampedPrice`; Scenario E
evaluates to 2000. -/
theorem C9_profit :
    (∀ (b : OrderBook) (future_price etf_price : Int), 0 ≤ future_price →
      b.calc_profit_or_loss future_price etf_price =
        b.future_position * future_price +
          b.position *
            (max (future_price - (pyRoundDiv future_price 50 - pyRoundDiv future_price 50 % 100))
              (min (future_price + (pyRoundDiv future_price 50 - pyRoundDiv future_price 50 % 100))
                etf_price))) ∧
    ({ OrderBook.init with position := 10, future_position := -10 } : OrderBook).calc_profit_or_loss
        10000 10500 = 2000 := by
  constructor
  · intro b fp pp hfp
    have hq : 0 ≤ fp / 50 := Int.ediv_nonneg hfp (by omega)
    have hd0 : 0 ≤ pyRoundDiv fp 50 := by
      unfold pyRoundDiv
      dsimp only
      split_ifs <;> omega
    have hmod : pyRoundDiv fp 50 % 100 = pyRoundDiv fp 50 - 100 * (pyRoundDiv fp 50 / 100) :=
      Int.emod_def _ _
    have hdivnn : 0 ≤ pyRoundDiv fp 50 / 100 := Int.ediv_nonneg hd0 (by omega)
    have hdelta : 0 ≤ pyRoundDiv fp 50 - pyRoundDiv fp 50 % 100 := by omega
    have hcl : (if pp < fp - (pyRoundDiv fp 50 - pyRoundDiv fp 50 % 100) then
          fp - (pyRoundDiv fp 50 - pyRoundDiv fp 50 % 100)
        else if pp > fp + (pyRoundDiv fp 50 - pyRoundDiv fp 50 % 100) then
          fp + (pyRoundDiv fp 50 - pyRoundDiv fp 50 % 100)
        else pp) =
        max (fp - (pyRoundDiv fp 50 - pyRoundDiv fp 50 % 100))
          (min (fp + (pyRoundDiv fp 50 - pyRoundDiv fp 50 % 100)) pp) := by
      rw [max_def, min_def]
      split_ifs <;> omega
    unfold OrderBook.calc_profit_or_loss
    dsimp only
    rw [hcl]
  · decide


/-- C3 witness: a late fill for a cancelled bid, and a fill for an id
unknown to both the ledger and the registry. -/
theorem C3_witness :
    ((runOps OrderBook.init [Op.addBid 100 10 1, Op.remove 1]).amend_order 5 1).2 =
        AmendOutcome.registry ∧
    ((runOps OrderBook.init [Op.addBid 100 10 1, Op.remove 1]).amend_order 5 1).1.position =
        (runOps OrderBook.init [Op.addBid 100 10 1, Op.remove 1]).position + 5 ∧
    OrderBook.init.amend_order 5 99 = (OrderBook.init, AmendOutcome.notFound) := by
  have h1 := C3_amend_unmatched (runOps OrderBook.init [Op.addBid 100 10 1, Op.remove 1]) 5 1
    (by decide) (by decide)
  have h2 := C3_amend_unmatched OrderBook.init 5 99 (by decide) (by decide)
  have hb := h1.1 (by decide)
  refine ⟨by rw [hb], by rw [hb], (h2.2.2 (by decide)).1⟩

/-- C4 witness: the four rejection codes at four concrete ledgers, and the
iff at an accepting ledger. -/
theorem C4_witness :
    ({ OrderBook.init with num_orders := 10 } : OrderBook).add_bid 100 5 1 =
        ({ OrderBook.init with num_orders := 10 }, false, 0) ∧
    ({ OrderBook.init with volume := 200 } : OrderBook).add_bid 100 5 1 =
        ({ OrderBook.init with volume := 200 }, false, 1) ∧
    ({ OrderBook.init with position := 1000 } : OrderBook).add_bid 100 5 1 =
        ({ OrderBook.init with position := 1000 }, false, 2) ∧
    ({ OrderBook.init with position := 400, vol_bids := 600 } : OrderBook).add_bid 100 5 1 =
        ({ OrderBook.init with position := 400, vol_bids := 600 }, false, 3) ∧
    ({ OrderBook.init with position := -1000 } : OrderBook).add_ask 100 5 1 =
        ({ OrderBook.init with position := -1000 }, false, 2) ∧
    (OrderBook.init.add_bid 100 5 1).2.1 = true := by
  refine ⟨?_, ?_, ?_, ?_, ?_, ?_⟩
  · exact ((C4_rejection ({ OrderBook.init with num_orders := 10 }) 100 5 1).2.1
      (by decide)).trans (by decide)
  · exact ((C4_rejection ({ OrderBook.init with volume := 200 }) 100 5 1).2.1
      (by decide)).trans (by decide)
  · exact ((C4_rejection ({ OrderBook.init with position := 1000 }) 100 5 1).2.1
      (by decide)).trans (by decide)
  · exact ((C4_rejection ({ OrderBook.init with position := 400, vol_bids := 600 }) 100 5 1).2.1
      (by decide)).trans (by decide)
  · exact ((C4_rejection ({ OrderBook.init with position := -1000 }) 100 5 1).2.2.2
      (by decide)).trans (by decide)
  · have := (C4_rejection OrderBook.init 100 5 1).1
    rcases h : (OrderBook.init.add_bid 100 5 1).2.1 with _ | _
    · exact absurd (this.mp h) (by decide)
    · rfl

/-- C9 witness: Scenario E through the general clamp equation. -/
theorem C9_witness :
    ({ OrderBook.init with position := 10, future_position := -10 } : OrderBook).calc_profit_or_loss
        10000 10500 = -10 * 10000 + 10 * 10200 :=
  ((C9_profit.1 ({ OrderBook.init with position := 10, future_position := -10 }) 10000 10500
    (by decide)).trans (by decide))

/-- C5: an accepted `add_bid` records and returns the requested volume
clamped first to `VOLUME_LIMIT - volume` and then to the room under the
position-plus-resting-bids cap; symmetrically for `add_ask` in any state
with `vol_asks <= volume` (true of every reachable state). -/
theorem C5_clamped_volume (b : OrderBook) (price vol order_id : Int) :
    ((b.add_bid price vol order_id).2.1 = true →
      b.add_bid price vol order_id =
        ({ b with
            bids := insertSorted b.bids
              ⟨price, min (min vol (VOLUME_LIMIT - b.volume))
                (POSITION_LIMIT - b.position - b.vol_bids), order_id⟩
            , position_after_orders := b.position_after_orders +
                min (min vol (VOLUME_LIMIT - b.volume))
                  (POSITION_LIMIT - b.position - b.vol_bids)
            , volume := b.volume +
                min (min vol (VOLUME_LIMIT - b.volume))
                  (POSITION_LIMIT - b.position - b.vol_bids)
            , num_orders := b.num_orders + 1
            , vol_bids := b.vol_bids +
                min (min vol (VOLUME_LIMIT - b.volume))
                  (POSITION_LIMIT - b.position - b.vol_bids) }, true,
          min (min vol (VOLUME_LIMIT - b.volume))
            (POSITION_LIMIT - b.position - b.vol_bids))) ∧
    (b.vol_asks ≤ b.volume →
      (b.add_ask price vol order_id).2.1 = true →
      b.add_ask price vol order_id =
        ({ b with
            asks := insertSorted b.asks
              ⟨price, min (min vol (VOLUME_LIMIT - b.volume))
                (POSITION_LIMIT + b.position - b.vol_asks), order_id⟩
            , position_after_orders := b.position_after_orders -
                min (min vol (VOLUME_LIMIT - b.volume))
                  (POSITION_LIMIT + b.position - b.vol_asks)
            , volume := b.volume +
                min (min vol (VOLUME_LIMIT - b.volume))
                  (POSITION_LIMIT + b.position - b.vol_asks)
            , num_orders := b.num_orders + 1
            , vol_asks := b.vol_asks +
                min (min vol (VOLUME_LIMIT - b.volume))
                  (POSITION_LIMIT + b.position - b.vol_asks) }, true,
          min (min vol (VOLUME_LIMIT - b.volume))
            (POSITION_LIMIT + b.position - b.vol_asks))) := by
  constructor
  · intro hacc
    unfold OrderBook.add_bid at hacc ⊢
    rw [← bidClampVol_eq_min b vol]
    split_ifs at hacc ⊢; simp_all
  · intro hva hacc
    unfold OrderBook.add_ask at hacc ⊢
    rw [← askClampVol_eq_min b vol hva]
    split_ifs at hacc ⊢; simp_all

/-- C5 witness: an accepted bid (volume passes unclamped) and an accepted
ask (volume clamped to the volume-limit room). -/
theorem C5_witness :
    (OrderBook.init.add_bid 100 10 1).2.2 = 10 ∧
    (OrderBook.init.add_ask 100 500 2).2.2 = 200 := by
  have h1 := (C5_clamped_volume OrderBook.init 100 10 1).1 (by decide)
  have h2 := (C5_clamped_volume OrderBook.init 100 500 2).2 (by decide) (by decide)
  exact ⟨by rw [h1]; decide, by rw [h2]; decide⟩


/-- C7: `calc_average_price(price, vol, side)` recomputes the weighted
running mean and grows the same-side accumulator while the position has
the sign of the fill side; otherwise it shrinks the opposing accumulator,
resets everything at an exact zero crossing, or flips to the overshoot
volume with the fill price as the new average. -/
theorem C7_average_price (b : OrderBook) (price vol : Int) :
    (0 < b.position →
      b.calc_average_price price vol Side.BUY =
        { b with total_buy_volume := b.total_buy_volume + vol
               , average_price := pyRoundDiv
                   (b.total_buy_volume * b.average_price + price * vol)
                   (b.total_buy_volume + vol) }) ∧
    (b.position ≤ 0 → b.position + vol < 0 →
      b.calc_average_price price vol Side.BUY =
        { b with total_sell_volume := b.total_sell_volume - vol }) ∧
    (b.position ≤ 0 → b.position + vol = 0 →
      b.calc_average_price price vol Side.BUY =
        { b with total_buy_volume := 0, total_sell_volume := 0, average_price := 0 }) ∧
    (b.position ≤ 0 → 0 < b.position + vol →
      b.calc_average_price price vol Side.BUY =
        { b with total_sell_volume := 0
               , total_buy_volume := pyAbs (b.position + vol)
               , average_price := price }) ∧
    (b.position < 0 →
      b.calc_average_price price vol Side.SELL =
        { b with total_sell_volume := b.total_sell_volume + vol
               , average_price := pyRoundDiv
                   (b.total_sell_volume * b.average_price + price * vol)
                   (b.total_sell_volume + vol) }) ∧
    (0 ≤ b.position → 0 < b.position - vol →
      b.calc_average_price price vol Side.SELL =
        { b with total_buy_volume := b.total_buy_volume - vol }) ∧
    (0 ≤ b.position → b.position - vol = 0 →
      b.calc_average_price price vol Side.SELL =
        { b with total_buy_volume := 0, total_sell_volume := 0, average_price := 0 }) ∧
    (0 ≤ b.position → b.position - vol < 0 →
      b.calc_average_price price vol Side.SELL =
        { b with total_buy_volume := 0
               , total_sell_volume := pyAbs (b.position - vol)
               , average_price := price }) := by
  unfold OrderBook.calc_average_price pyAbs
  refine ⟨?_, ?_, ?_, ?_, ?_, ?_, ?_, ?_⟩ <;> intros <;> dsimp only <;> split_ifs <;>
    first
      | rfl
      | omega
      | simp_all [Side.BUY, Side.SELL]

/-- C7 witness: one fill of each kind at concrete ledgers. -/
theorem C7_witness :
    ({ OrderBook.init with position := 10, total_buy_volume := 10, average_price := 100 } :
        OrderBook).calc_average_price 107 10 Side.BUY =
      { OrderBook.init with position := 10, total_buy_volume := 20, average_price := 104 } ∧
    ({ OrderBook.init with position := -10, total_sell_volume := 10 } :
        OrderBook).calc_average_price 100 4 Side.BUY =
      { OrderBook.init with position := -10, total_sell_volume := 6 } ∧
    ({ OrderBook.init with position := -10, total_sell_volume := 10, average_price := 100 } :
        OrderBook).calc_average_price 90 10 Side.BUY =
      { OrderBook.init with position := -10, total_sell_volume := 0, total_buy_volume := 0, average_price := 0 } ∧
    ({ OrderBook.init with position := -10, total_sell_volume := 10, average_price := 100 } :
        OrderBook).calc_average_price 90 15 Side.BUY =
      { OrderBook.init with position := -10, total_sell_volume := 0, total_buy_volume := 5, average_price := 90 } := by
  refine ⟨?_, ?_, ?_, ?_⟩
  · exact ((C7_average_price
      ({ OrderBook.init with position := 10, total_buy_volume := 10, average_price := 100 })
      107 10).1 (by decide)).trans (by decide)
  · exact ((C7_average_price
      ({ OrderBook.init with position := -10, total_sell_volume := 10 })
      100 4).2.1 (by decide) (by decide)).trans (by decide)
  · exact ((C7_average_price
      ({ OrderBook.init with position := -10, total_sell_volume := 10, average_price := 100 })
      90 10).2.2.1 (by decide) (by decide)).trans (by decide)
  · exact ((C7_average_price
      ({ OrderBook.init with position := -10, total_sell_volume := 10, average_price := 100 })
      90 15).2.2.2.1 (by decide) (by decide)).trans (by decide)


lemma lexLE_refl (p : Int × Int) : lexLE p p := Or.inr ⟨rfl, le_refl _⟩

lemma lexLE_trans (p q r : Int × Int) (h1 : lexLE p q) (h2 : lexLE q r) : lexLE p r := by
  unfold lexLE at *
  rcases h1 with h1 | ⟨h1a, h1b⟩ <;> rcases h2 with h2 | ⟨h2a, h2b⟩ <;>
    first | (left; omega) | (right; constructor <;> omega)

lemma selectScan_mono (m : Int) (s : Side) (l : List Order)
    (acc : Int × Int × Option (Order × Side)) :
    lexLE (acc.1, acc.2.1) ((selectScan m s l acc).1, (selectScan m s l acc).2.1) := by
  induction l generalizing acc with
  | nil => exact lexLE_refl _
  | cons o os ih =>
      unfold selectScan
      dsimp only
      split
      · rename_i hcond
        refine lexLE_trans _ _ _ ?_ (ih (pyAbs (m - o.price), o.order_id, some (o, s)))
        unfold lexLE
        dsimp only
        omega
      · exact ih acc

lemma selectScan_bound (m : Int) (s : Side) (l : List Order)
    (acc : Int × Int × Option (Order × Side)) (x : Order) (hx : x ∈ l) :
    lexLE (pyAbs (m - x.price), x.order_id)
      ((selectScan m s l acc).1, (selectScan m s l acc).2.1) := by
  induction l generalizing acc with
  | nil => simp at hx
  | cons o os ih =>
      unfold selectScan
      dsimp only
      rcases List.mem_cons.mp hx with h1 | h1
      · subst h1
        split
        · rename_i hcond
          refine lexLE_trans _ _ _ ?_ (selectScan_mono m s os _)
          exact lexLE_refl _
        · rename_i hcond
          refine lexLE_trans _ _ _ ?_ (selectScan_mono m s os acc)
          unfold lexLE
          dsimp only
          omega
      · split
        · exact ih _ h1
        · exact ih _ h1

lemma selectScan_result (m : Int) (s : Side) (l : List Order)
    (acc : Int × Int × Option (Order × Side)) :
    selectScan m s l acc = acc ∨
      ∃ x ∈ l, selectScan m s l acc = (pyAbs (m - x.price), x.order_id, some (x, s)) := by
  induction l generalizing acc with
  | nil => exact Or.inl rfl
  | cons o os ih =>
      unfold selectScan
      dsimp only
      split
      · rcases ih (pyAbs (m - o.price), o.order_id, some (o, s)) with h | ⟨x, hx, h⟩
        · exact Or.inr ⟨o, List.mem_cons_self o os, h⟩
        · exact Or.inr ⟨x, List.mem_cons_of_mem o hx, h⟩
      · rcases ih acc with h | ⟨x, hx, h⟩
        · exact Or.inl h
        · exact Or.inr ⟨x, List.mem_cons_of_mem o hx, h⟩

lemma selectAll_spec (b : OrderBook) (m : Int) (h : b.bids ≠ [] ∨ b.asks ≠ []) :
    ∃ o sd, selectAll b m = (pyAbs (m - o.price), o.order_id, some (o, sd)) ∧
      ((sd = Side.BID ∧ o ∈ b.bids) ∨ (sd = Side.ASK ∧ o ∈ b.asks)) ∧
      ∀ x, x ∈ b.bids ∨ x ∈ b.asks →
        lexLE (pyAbs (m - x.price), x.order_id) (pyAbs (m - o.price), o.order_id) := by
  unfold selectAll
  have hbound : ∀ x, x ∈ b.bids ∨ x ∈ b.asks →
      lexLE (pyAbs (m - x.price), x.order_id)
        ((selectScan m Side.ASK b.asks (selectScan m Side.BID b.bids (-1, -1, none))).1,
         (selectScan m Side.ASK b.asks (selectScan m Side.BID b.bids (-1, -1, none))).2.1) := by
    intro x hx
    rcases hx with hx | hx
    · exact lexLE_trans _ _ _
        (selectScan_bound m Side.BID b.bids (-1, -1, none) x hx)
        (selectScan_mono m Side.ASK b.asks _)
    · exact selectScan_bound m Side.ASK b.asks _ x hx
  rcases selectScan_result m Side.ASK b.asks (selectScan m Side.BID b.bids (-1, -1, none)) with
    hfin | ⟨x, hx, hfin⟩
  · rcases selectScan_result m Side.BID b.bids (-1, -1, none) with hmid | ⟨x, hx, hmid⟩
    · exfalso
      rcases h with h | h
      · obtain ⟨y, hy⟩ := List.exists_mem_of_ne_nil _ h
        have := hbound y (Or.inl hy)
        rw [hfin, hmid] at this
        have := pyAbs_nonneg (m - y.price)
        unfold lexLE at this
        rcases ‹lexLE _ _› with hc | ⟨hc, _⟩ <;> dsimp at hc <;> omega
      · obtain ⟨y, hy⟩ := List.exists_mem_of_ne_nil _ h
        have := hbound y (Or.inr hy)
        rw [hfin, hmid] at this
        have := pyAbs_nonneg (m - y.price)
        rcases ‹lexLE _ _› with hc | ⟨hc, _⟩ <;> dsimp at hc <;> omega
    · refine ⟨x, Side.BID, by rw [hfin, hmid], Or.inl ⟨rfl, hx⟩, ?_⟩
      intro y hy
      have := hbound y hy
      rw [hfin, hmid] at this
      exact this
  · refine ⟨x, Side.ASK, hfin, Or.inr ⟨rfl, hx⟩, ?_⟩
    intro y hy
    have := hbound y hy
    rw [hfin] at this
    exact this


/-- C6: with at least one resting order, `remove_least_useful_order`
selects the order maximizing `|marketPrice - price|` over both sides, ties
broken toward the larger id; it returns `none` without modification when
the selection matches the proposed price and side, and otherwise removes
the selection via `remove_order` and returns its id.  Scenario D: with
bids `[(90,5,1),(110,5,2)]` and market price 100 it returns 2 and order 2
is removed. -/
theorem C6_eviction :
    (∀ (b : OrderBook) (m p : Int) (s : Side), b.bids ≠ [] ∨ b.asks ≠ [] →
      ∃ o sd,
        ((sd = Side.BID ∧ o ∈ b.bids) ∨ (sd = Side.ASK ∧ o ∈ b.asks)) ∧
        (∀ x, x ∈ b.bids ∨ x ∈ b.asks →
          pyAbs (m - x.price) < pyAbs (m - o.price) ∨
            (pyAbs (m - x.price) = pyAbs (m - o.price) ∧ x.order_id ≤ o.order_id)) ∧
        (o.price = p ∧ s = sd → b.remove_least_useful_order m p s = some (b, none)) ∧
        (¬(o.price = p ∧ s = sd) →
          b.remove_least_useful_order m p s =
            some (b.remove_order o.order_id, some o.order_id))) ∧
    ((runOps OrderBook.init [Op.addBid 90 5 1, Op.addBid 110 5 2]).remove_least_useful_order
        100 95 Side.BID =
      some ((runOps OrderBook.init [Op.addBid 90 5 1, Op.addBid 110 5 2]).remove_order 2,
        some 2)) ∧
    ((runOps OrderBook.init [Op.addBid 90 5 1, Op.addBid 110 5 2]).remove_order 2).bids =
      [⟨90, 5, 1⟩] := by
  refine ⟨?_, by decide, by decide⟩
  intro b m p s h
  obtain ⟨o, sd, hsel, hmem, hbd⟩ := selectAll_spec b m h
  refine ⟨o, sd, hmem, fun x hx => hbd x hx, ?_, ?_⟩
  · intro hc
    unfold OrderBook.remove_least_useful_order
    rw [hsel]
    dsimp only
    rw [if_pos hc]
  · intro hc
    unfold OrderBook.remove_least_useful_order
    rw [hsel]
    dsimp only
    rw [if_neg hc]

/-- C6 witness: the general selection theorem applied to the Scenario D
ledger. -/
theorem C6_witness :
    ∃ o sd,
      ((sd = Side.BID ∧ o ∈ (runOps OrderBook.init [Op.addBid 90 5 1, Op.addBid 110 5 2]).bids) ∨
        (sd = Side.ASK ∧ o ∈ (runOps OrderBook.init [Op.addBid 90 5 1, Op.addBid 110 5 2]).asks)) ∧
      (∀ x, x ∈ (runOps OrderBook.init [Op.addBid 90 5 1, Op.addBid 110 5 2]).bids ∨
          x ∈ (runOps OrderBook.init [Op.addBid 90 5 1, Op.addBid 110 5 2]).asks →
        pyAbs (100 - x.price) < pyAbs (100 - o.price) ∨
          (pyAbs (100 - x.price) = pyAbs (100 - o.price) ∧ x.order_id ≤ o.order_id)) ∧
      (o.price = 95 ∧ Side.BID = sd →
        (runOps OrderBook.init [Op.addBid 90 5 1, Op.addBid 110 5 2]).remove_least_useful_order
          100 95 Side.BID =
          some ((runOps OrderBook.init [Op.addBid 90 5 1, Op.addBid 110 5 2]), none)) ∧
      (¬(o.price = 95 ∧ Side.BID = sd) →
        (runOps OrderBook.init [Op.addBid 90 5 1, Op.addBid 110 5 2]).remove_least_useful_order
          100 95 Side.BID =
          some ((runOps OrderBook.init [Op.addBid 90 5 1, Op.addBid 110 5 2]).remove_order
            o.order_id, some o.order_id)) :=
  C6_eviction.1 (runOps OrderBook.init [Op.addBid 90 5 1, Op.addBid 110 5 2]) 100 95 Side.BID
    (by decide)

/-- C10: with both sides empty, `remove_least_useful_order` does not
return `None` but raises (`order` is `nil` when its price is read,
modelled by the outer `none`); with at least one resting order it
terminates normally. -/
theorem C10_empty_book :
    (∀ (b : OrderBook) (m p : Int) (s : Side), b.bids = [] → b.asks = [] →
      b.remove_least_useful_order m p s = none) ∧
    (∀ (b : OrderBook) (m p : Int) (s : Side), b.bids ≠ [] ∨ b.asks ≠ [] →
      ∃ r, b.remove_least_useful_order m p s = some r) := by
  constructor
  · intro b m p s h1 h2
    unfold OrderBook.remove_least_useful_order selectAll
    rw [h1, h2]
    rfl
  · intro b m p s h
    obtain ⟨o, sd, hsel, hmem, hbd⟩ := selectAll_spec b m h
    unfold OrderBook.remove_least_useful_order
    rw [hsel]
    dsimp only
    by_cases hc : o.price = p ∧ s = sd
    · rw [if_pos hc]
      exact ⟨(b, none), rfl⟩
    · rw [if_neg hc]
      exact ⟨(b.remove_order o.order_id, some o.order_id), rfl⟩

/-- C10 witness: the crash on the empty book and normal termination on a
one-order book. -/
theorem C10_witness :
    OrderBook.init.remove_least_useful_order 100 95 Side.BID = none ∧
    ∃ r, (runOps OrderBook.init [Op.addBid 90 5 1]).remove_least_useful_order
      100 95 Side.ASK = some r :=
  ⟨C10_empty_book.1 OrderBook.init 100 95 Side.BID rfl rfl,
   C10_empty_book.2 (runOps OrderBook.init [Op.addBid 90 5 1]) 100 95 Side.ASK (by decide)⟩


lemma evict_cases (b : OrderBook) (m p : Int) (s : Side) :
    applyOp b (Op.evict m p s) = b ∨ ∃ i, applyOp b (Op.evict m p s) = b.remove_order i := by
  unfold applyOp
  dsimp only
  unfold OrderBook.remove_least_useful_order
  rcases hsel : selectAll b m with ⟨d, oid, sel⟩
  cases sel with
  | none => exact Or.inl rfl
  | some q =>
      obtain ⟨o, sd⟩ := q
      dsimp only
      split_ifs
      · exact Or.inl rfl
      · exact Or.inr ⟨oid, rfl⟩

lemma inv2_add_bid (b : OrderBook) (p v i : Int) (h : Inv2 b) : Inv2 (b.add_bid p v i).1 := by
  unfold Inv2 OrderBook.add_bid at *
  split_ifs <;> simp <;> omega

lemma inv2_add_ask (b : OrderBook) (p v i : Int) (h : Inv2 b) : Inv2 (b.add_ask p v i).1 := by
  unfold Inv2 OrderBook.add_ask at *
  split_ifs <;> simp <;> omega

lemma inv2_remove (b : OrderBook) (i : Int) (h : Inv2 b) : Inv2 (b.remove_order i) := by
  unfold Inv2 OrderBook.remove_order at *
  cases hb : removeList i b.bids with
  | some q =>
      obtain ⟨o, l1⟩ := q
      dsimp only
      omega
  | none =>
      cases ha : removeList i b.asks with
      | some q =>
          obtain ⟨o, l1⟩ := q
          dsimp only
          omega
      | none => exact h

lemma inv2_amend (b : OrderBook) (v i : Int)
    (hg : nonRegistryOp b (Op.amend v i) = true) (h : Inv2 b) :
    Inv2 (b.amend_order v i).1 := by
  unfold Inv2 OrderBook.amend_order at *
  cases hb : amendList v i b.bids with
  | some q =>
      obtain ⟨o, l1⟩ := q
      have hf := calc_average_price_fields b o.price v Side.BUY
      dsimp only
      obtain ⟨hf1, hf2, -, -, -, -, hf7, hf8, -⟩ := hf
      rw [hf1, hf2, hf7, hf8]
      omega
  | none =>
      cases ha : amendList v i b.asks with
      | some q =>
          obtain ⟨o, l1⟩ := q
          have hf := calc_average_price_fields b o.price v Side.SELL
          dsimp only
          obtain ⟨hf1, hf2, -, -, -, -, hf7, hf8, -⟩ := hf
          rw [hf1, hf2, hf7, hf8]
          omega
      | none =>
          unfold nonRegistryOp at hg
          dsimp only at hg
          rw [hb, ha] at hg
          dsimp only at hg
          rw [Option.isNone_iff_eq_none.mp hg]
          exact h

lemma inv2_applyOp (b : OrderBook) (op : Op) (hg : nonRegistryOp b op = true) (h : Inv2 b) :
    Inv2 (applyOp b op) := by
  cases op with
  | addBid p v i => exact inv2_add_bid b p v i h
  | addAsk p v i => exact inv2_add_ask b p v i h
  | amend v i => exact inv2_amend b v i hg h
  | remove i => exact inv2_remove b i h
  | evict m p s =>
      rcases evict_cases b m p s with he | ⟨j, he⟩
      · rw [he]; exact h
      · rw [he]; exact inv2_remove b j h

lemma inv2_runOps (ops : List Op) (b : OrderBook) (h : Inv2 b)
    (hg : nonRegistryTrace b ops = true) : Inv2 (runOps b ops) := by
  induction ops generalizing b with
  | nil => exact h
  | cons op ops ih =>
      unfold nonRegistryTrace at hg
      rw [Bool.and_eq_true] at hg
      exact ih (applyOp b op) (inv2_applyOp b op hg.1 h) hg.2


/-- C2 counterexample: a late fill routed through the cancelled-order
registry moves `position` without touching `positionAfterOrders`, so the
projected-position equation fails after that mutating operation. -/
theorem C2_counterexample :
    ¬ ((runOps OrderBook.init [Op.addBid 100 10 1, Op.remove 1, Op.amend 10 1]).position_after_orders =
        (runOps OrderBook.init [Op.addBid 100 10 1, Op.remove 1, Op.amend 10 1]).position +
          (runOps OrderBook.init [Op.addBid 100 10 1, Op.remove 1, Op.amend 10 1]).vol_bids -
          (runOps OrderBook.init [Op.addBid 100 10 1, Op.remove 1, Op.amend 10 1]).vol_asks) := by
  decide

/-- C2 (amended): `positionAfterOrders == position + volBids - volAsks`
holds after every sequence of mutating operations that avoids the
cancelled-order-registry branch of `amend_order` (all other branches of
all five operations preserve it). -/
theorem C2_position_after_orders (ops : List Op)
    (h : nonRegistryTrace OrderBook.init ops = true) :
    (runOps OrderBook.init ops).position_after_orders =
      (runOps OrderBook.init ops).position + (runOps OrderBook.init ops).vol_bids -
        (runOps OrderBook.init ops).vol_asks :=
  inv2_runOps ops OrderBook.init rfl h

/-- C2 witness: a trace exercising submit, fill, cancel and evict. -/
theorem C2_witness :
    nonRegistryTrace OrderBook.init
      [Op.addBid 100 10 1, Op.addAsk 110 5 2, Op.amend 4 1, Op.remove 2, Op.evict 100 90 Side.ASK,
        Op.amend 3 9] = true ∧
    (runOps OrderBook.init
      [Op.addBid 100 10 1, Op.addAsk 110 5 2, Op.amend 4 1, Op.remove 2, Op.evict 100 90 Side.ASK,
        Op.amend 3 9]).position_after_orders =
      (runOps OrderBook.init
        [Op.addBid 100 10 1, Op.addAsk 110 5 2, Op.amend 4 1, Op.remove 2, Op.evict 100 90 Side.ASK,
          Op.amend 3 9]).position +
        (runOps OrderBook.init
          [Op.addBid 100 10 1, Op.addAsk 110 5 2, Op.amend 4 1, Op.remove 2, Op.evict 100 90 Side.ASK,
            Op.amend 3 9]).vol_bids -
        (runOps OrderBook.init
          [Op.addBid 100 10 1, Op.addAsk 110 5 2, Op.amend 4 1, Op.remove 2, Op.evict 100 90 Side.ASK,
            Op.amend 3 9]).vol_asks :=
  ⟨by decide,
   C2_position_after_orders
     [Op.addBid 100 10 1, Op.addAsk 110 5 2, Op.amend 4 1, Op.remove 2, Op.evict 100 90 Side.ASK,
       Op.amend 3 9] (by decide)⟩


lemma inv_init : Inv OrderBook.init := by
  refine ⟨rfl, rfl, rfl, ?_, ?_, ?_, ?_, ?_⟩ <;> simp [OrderBook.init, POSITION_LIMIT, VOLUME_LIMIT]

lemma inv_add_bid (b : OrderBook) (p v i : Int) (hv : 0 < v) (h : Inv b) :
    Inv (b.add_bid p v i).1 := by
  obtain ⟨h1, h2, h3, h4, h5, h6, h7, h8⟩ := h
  unfold OrderBook.add_bid
  split_ifs with hno hvol hpos hpb
  · exact ⟨h1, h2, h3, h4, h5, h6, h7, h8⟩
  · exact ⟨h1, h2, h3, h4, h5, h6, h7, h8⟩
  · exact ⟨h1, h2, h3, h4, h5, h6, h7, h8⟩
  · obtain ⟨hw1, hw2, hw3⟩ := bidClampVol_bounds b v hv h8 hvol h6 hpb
    refine ⟨?_, ?_, ?_, ?_, ?_, ?_, ?_, ?_⟩ <;> dsimp only
    · rw [sumVol_insertSorted]
      dsimp only
      omega
    · exact h2
    · omega
    · intro x hx
      rcases mem_insertSorted _ _ _ hx with h9 | h9
      · rw [h9]
        exact hw1
      · exact h4 x h9
    · exact h5
    · omega
    · omega
    · omega
  · exact ⟨h1, h2, h3, h4, h5, h6, h7, h8⟩

lemma inv_add_ask (b : OrderBook) (p v i : Int) (hv : 0 < v) (h : Inv b) :
    Inv (b.add_ask p v i).1 := by
  obtain ⟨h1, h2, h3, h4, h5, h6, h7, h8⟩ := h
  unfold OrderBook.add_ask
  split_ifs with hno hvol hpos hpa
  · exact ⟨h1, h2, h3, h4, h5, h6, h7, h8⟩
  · exact ⟨h1, h2, h3, h4, h5, h6, h7, h8⟩
  · exact ⟨h1, h2, h3, h4, h5, h6, h7, h8⟩
  · have hvb : 0 ≤ b.vol_bids := h1 ▸ sumVol_nonneg b.bids h4
    obtain ⟨hw1, hw2, hw3⟩ := askClampVol_bounds b v hv h8 hvol h7 hpa hvb h3
    refine ⟨?_, ?_, ?_, ?_, ?_, ?_, ?_, ?_⟩ <;> dsimp only
    · exact h1
    · rw [sumVol_insertSorted]
      dsimp only
      omega
    · omega
    · exact h4
    · intro x hx
      rcases mem_insertSorted _ _ _ hx with h9 | h9
      · rw [h9]
        exact hw1
      · exact h5 x h9
    · omega
    · omega
    · omega
  · exact ⟨h1, h2, h3, h4, h5, h6, h7, h8⟩

lemma inv_amend (b : OrderBook) (v i : Int)
    (hg : goodOp b (Op.amend v i) = true) (h : Inv b) :
    Inv (b.amend_order v i).1 := by
  obtain ⟨h1, h2, h3, h4, h5, h6, h7, h8⟩ := h
  unfold goodOp at hg
  dsimp only at hg
  unfold OrderBook.amend_order
  cases hb : amendList v i b.bids with
  | some q =>
      obtain ⟨o, l1⟩ := q
      rw [hb] at hg
      dsimp only at hg
      rw [Bool.and_eq_true, decide_eq_true_eq, decide_eq_true_eq] at hg
      obtain ⟨hv, hvo⟩ := hg
      obtain ⟨hmem, hsum, hposl⟩ := amendList_spec v i b.bids l1 o hb
      have hf := calc_average_price_fields b o.price v Side.BUY
      obtain ⟨hf1, -, hf3, -, hf5, hf6, hf7, hf8, -⟩ := hf
      dsimp only
      refine ⟨?_, ?_, ?_, ?_, ?_, ?_, ?_, ?_⟩ <;>
        simp only [hf1, hf3, hf5, hf6, hf7, hf8]
      · omega
      · exact h2
      · omega
      · exact fun x hx => hposl h4 hvo x hx
      · exact h5
      · omega
      · omega
      · omega
  | none =>
      rw [hb] at hg
      dsimp only at hg
      cases ha : amendList v i b.asks with
      | some q =>
          obtain ⟨o, l1⟩ := q
          rw [ha] at hg
          dsimp only at hg
          rw [Bool.and_eq_true, decide_eq_true_eq, decide_eq_true_eq] at hg
          obtain ⟨hv, hvo⟩ := hg
          obtain ⟨hmem, hsum, hposl⟩ := amendList_spec v i b.asks l1 o ha
          have hf := calc_average_price_fields b o.price v Side.SELL
          obtain ⟨hf1, -, hf3, -, hf5, hf6, hf7, hf8, -⟩ := hf
          dsimp only
          refine ⟨?_, ?_, ?_, ?_, ?_, ?_, ?_, ?_⟩ <;>
            simp only [hf1, hf3, hf5, hf6, hf7, hf8]
          · exact h1
          · omega
          · omega
          · exact h4
          · exact fun x hx => hposl h5 hvo x hx
          · omega
          · omega
          · omega
      | none =>
          rw [ha] at hg
          dsimp only at hg
          simp at hg

lemma inv_remove (b : OrderBook) (i : Int) (h : Inv b) : Inv (b.remove_order i) := by
  obtain ⟨h1, h2, h3, h4, h5, h6, h7, h8⟩ := h
  unfold OrderBook.remove_order
  cases hb : removeList i b.bids with
  | some q =>
      obtain ⟨o, l1⟩ := q
      obtain ⟨hmem, hsum, hsub⟩ := removeList_spec i b.bids l1 o hb
      have ho : 0 < o.vol := h4 o hmem
      refine ⟨?_, ?_, ?_, ?_, ?_, ?_, ?_, ?_⟩ <;> dsimp only
      · omega
      · exact h2
      · omega
      · exact fun x hx => h4 x (hsub x hx)
      · exact h5
      · omega
      · omega
      · omega
  | none =>
      cases ha : removeList i b.asks with
      | some q =>
          obtain ⟨o, l1⟩ := q
          obtain ⟨hmem, hsum, hsub⟩ := removeList_spec i b.asks l1 o ha
          have ho : 0 < o.vol := h5 o hmem
          refine ⟨?_, ?_, ?_, ?_, ?_, ?_, ?_, ?_⟩ <;> dsimp only
          · exact h1
          · omega
          · omega
          · exact h4
          · exact fun x hx => h5 x (hsub x hx)
          · omega
          · omega
          · omega
      | none => exact ⟨h1, h2, h3, h4, h5, h6, h7, h8⟩

lemma inv_applyOp (b : OrderBook) (op : Op) (hg : goodOp b op = true) (h : Inv b) :
    Inv (applyOp b op) := by
  cases op with
  | addBid p v i =>
      unfold goodOp at hg
      rw [decide_eq_true_eq] at hg
      exact inv_add_bid b p v i hg h
  | addAsk p v i =>
      unfold goodOp at hg
      rw [decide_eq_true_eq] at hg
      exact inv_add_ask b p v i hg h
  | amend v i => exact inv_amend b v i hg h
  | remove i => exact inv_remove b i h
  | evict m p s =>
      rcases evict_cases b m p s with he | ⟨j, he⟩
      · rw [he]; exact h
      · rw [he]; exact inv_remove b j h

lemma inv_runOps (ops : List Op) (b : OrderBook) (h : Inv b)
    (hg : goodTrace b ops = true) : Inv (runOps b ops) := by
  induction ops generalizing b with
  | nil => exact h
  | cons op ops ih =>
      unfold goodTrace at hg
      rw [Bool.and_eq_true] at hg
      exact ih (applyOp b op) (inv_applyOp b op hg.1 h) hg.2


/-- C1 counterexample: three operation sequences from the empty ledger
that break the claimed limits: a fill larger than the resting volume
drives `volBids` negative; repeated late fills through the cancelled-order
registry push `position` past `POSITION_LIMIT`; a submit with negative
volume drives `volBids` negative. -/
theorem C1_counterexample :
    (runOps OrderBook.init [Op.addBid 100 10 1, Op.amend 20 1]).vol_bids < 0 ∧
    POSITION_LIMIT < (runOps OrderBook.init [Op.addBid 100 200 1, Op.remove 1,
      Op.amend 200 1, Op.amend 200 1, Op.amend 200 1,
      Op.amend 200 1, Op.amend 200 1, Op.amend 200 1]).position ∧
    (runOps OrderBook.init [Op.addBid 100 (-5) 1]).vol_bids < 0 := by
  refine ⟨by decide, by decide, by decide⟩

/-- C1 (amended): after every sequence of well-formed operations from the
empty ledger — submits with positive volume, fills that match a resting
order with fill volume at most its remaining volume (late fills through
the cancelled-order registry excluded), arbitrary cancellations and
evictions — `volBids >= 0`, `volAsks >= 0`, `volume <= VOLUME_LIMIT` and
`|position| <= POSITION_LIMIT` all hold. -/
theorem C1_limits (ops : List Op) (h : goodTrace OrderBook.init ops = true) :
    0 ≤ (runOps OrderBook.init ops).vol_bids ∧
    0 ≤ (runOps OrderBook.init ops).vol_asks ∧
    (runOps OrderBook.init ops).volume ≤ VOLUME_LIMIT ∧
    pyAbs (runOps OrderBook.init ops).position ≤ POSITION_LIMIT := by
  obtain ⟨h1, h2, h3, h4, h5, h6, h7, h8⟩ := inv_runOps ops OrderBook.init inv_init h
  have hvb : 0 ≤ (runOps OrderBook.init ops).vol_bids :=
    h1 ▸ sumVol_nonneg _ h4
  have hva : 0 ≤ (runOps OrderBook.init ops).vol_asks :=
    h2 ▸ sumVol_nonneg _ h5
  refine ⟨hvb, hva, h8, ?_⟩
  unfold pyAbs
  split <;> omega

/-- C1 witness: a well-formed trace exercising all five operations. -/
theorem C1_witness :
    goodTrace OrderBook.init
      [Op.addBid 100 10 1, Op.addAsk 110 5 2, Op.amend 10 1, Op.remove 2,
        Op.addBid 90 5 3, Op.evict 100 95 Side.ASK] = true ∧
    (0 ≤ (runOps OrderBook.init
        [Op.addBid 100 10 1, Op.addAsk 110 5 2, Op.amend 10 1, Op.remove 2,
          Op.addBid 90 5 3, Op.evict 100 95 Side.ASK]).vol_bids ∧
      0 ≤ (runOps OrderBook.init
        [Op.addBid 100 10 1, Op.addAsk 110 5 2, Op.amend 10 1, Op.remove 2,
          Op.addBid 90 5 3, Op.evict 100 95 Side.ASK]).vol_asks ∧
      (runOps OrderBook.init
        [Op.addBid 100 10 1, Op.addAsk 110 5 2, Op.amend 10 1, Op.remove 2,
          Op.addBid 90 5 3, Op.evict 100 95 Side.ASK]).volume ≤ VOLUME_LIMIT ∧
      pyAbs (runOps OrderBook.init
        [Op.addBid 100 10 1, Op.addAsk 110 5 2, Op.amend 10 1, Op.remove 2,
          Op.addBid 90 5 3, Op.evict 100 95 Side.ASK]).position ≤ POSITION_LIMIT) :=
  ⟨by decide,
   C1_limits
     [Op.addBid 100 10 1, Op.addAsk 110 5 2, Op.amend 10 1, Op.remove 2,
       Op.addBid 90 5 3, Op.evict 100 95 Side.ASK] (by decide)⟩

end GT
